import Mathlib

/-!
Verification of the ARTICo3 development-kit core against its specification.

The definitions below are a shallow embedding of the Python sources:
  * `tools/_pypack/artico3/runtime/project.py` (configuration model),
  * `tools/_pypack/artico3/utils/template.py`  (macro template interpreter
    and tree materializer passes),
  * `tools/_pypack/artico3/devices.py`         (device descriptor registry).
Machine integers are modelled as `Nat`/`Int` (the Python code uses unbounded
integers), fallible paths return `Except`, and the filesystem collaborator
(`shutil2`, whose implementation is external to the analysed sources) is
modelled from its specified contract.
-/

namespace Artico3

/-! ## Python values, dictionaries and scope chains (template.py)

The template interpreter works over dictionaries mapping string keys to
Python values: booleans, integers, strings, or lists of dictionaries
(one dictionary per repeatable entity).  A scope chain is a list of such
dictionaries, innermost frame first. -/

/-- A Python value as used by the generation context: `bool`, `int`, `str`
or a list of dictionaries (each an association list keyed by strings);
additionally the evaluator can produce the keyword constant `None` and an
opaque member of the `builtins` module (named by `vbuiltin`).  Builtins
are modelled as opaque non-numeric, non-string objects; this matches
their comparison semantics for every builtin except the few string-valued
dunder members (`__name__`, …), on which nothing below depends. -/
inductive Value where
  | vbool : Bool → Value
  | vint  : Int → Value
  | vstr  : String → Value
  | vlist : List (List (String × Value)) → Value
  | vnone : Value
  | vbuiltin : String → Value

/-- A generation-context frame: a Python dictionary, modelled as an
association list where lookup returns the first matching binding. -/
abbrev Dict := List (String × Value)

/-- A scope chain: ordered list of frames, innermost first. -/
abbrev Scope := List Dict

/-- `k in d` / `d[k]` for a Python dictionary. -/
def lookupDict (d : Dict) (k : String) : Option Value :=
  (d.find? (fun p => p.1 = k)).map (fun p => p.2)

/-- `values = [_[key] for _ in scope if key in _]; values[0]`:
the first frame of the scope chain that defines `k` wins
(template.py line 33 and line 70). -/
def lookupScope (scope : Scope) (k : String) : Option Value :=
  match scope with
  | [] => none
  | d :: rest =>
    match lookupDict d k with
    | some v => some v
    | none => lookupScope rest k

/-! ## The host expression evaluator

`template.py` hands condition strings to Python's `eval` (line 56 for loop
conditions, line 111 for conditional comparisons).  `pyEval` embeds the
fragment of `eval` exercised by the template grammar: integer, boolean and
double-quoted string literals, names resolved in the globals dictionary,
the six comparison operators and `+`.  Expressions outside this fragment
answer `PyError.unsupported` and no theorem below depends on them. -/

/-- Exceptions the embedded evaluator can signal.  `unsupported` marks host
expressions outside the modelled fragment. -/
inductive PyError where
  | nameError
  | typeError
  | syntaxError
  | unsupported
deriving DecidableEq

/-- Characters of identifiers and number literals (`[A-Za-z0-9_]`). -/
def isIdentChar (c : Char) : Bool := c.isAlphanum || c = '_'

/-- Characters that form operator tokens in the modelled fragment. -/
def isOpChar (c : Char) : Bool :=
  c = '<' || c = '>' || c = '=' || c = '!' || c = '+'

/-- A token of the evaluated expression.  `nonelit` is the keyword
constant `None`, which like `True`/`False` is resolved at parse time and
can never be shadowed by the globals dictionary. -/
inductive Tok where
  | int : Int → Tok
  | bool : Bool → Tok
  | nonelit : Tok
  | str : String → Tok
  | name : String → Tok
  | op : String → Tok
deriving DecidableEq

/-- The names of the members of CPython 3's `builtins` module (functions,
types, exception classes, constants and module dunders).  `eval` with a
plain globals dictionary injects `__builtins__`, so a name absent from
the globals resolves through this set before `NameError` is raised. -/
def pyBuiltins : List String :=
  ["abs", "aiter", "all", "anext", "any", "ascii", "bin", "bool",
   "breakpoint", "bytearray", "bytes", "callable", "chr", "classmethod",
   "compile", "complex", "copyright", "credits", "delattr", "dict", "dir",
   "divmod", "enumerate", "eval", "exec", "exit", "filter", "float",
   "format", "frozenset", "getattr", "globals", "hasattr", "hash", "help",
   "hex", "id", "input", "int", "isinstance", "issubclass", "iter", "len",
   "license", "list", "locals", "map", "max", "memoryview", "min", "next",
   "object", "oct", "open", "ord", "pow", "print", "property", "quit",
   "range", "repr", "reversed", "round", "set", "setattr", "slice",
   "sorted", "staticmethod", "str", "sum", "super", "tuple", "type",
   "vars", "zip",
   "ArithmeticError", "AssertionError", "AttributeError", "BaseException",
   "BaseExceptionGroup", "BlockingIOError", "BrokenPipeError",
   "BufferError", "BytesWarning", "ChildProcessError",
   "ConnectionAbortedError", "ConnectionError", "ConnectionRefusedError",
   "ConnectionResetError", "DeprecationWarning", "EOFError",
   "EncodingWarning", "EnvironmentError", "Exception", "ExceptionGroup",
   "FileExistsError", "FileNotFoundError", "FloatingPointError",
   "FutureWarning", "GeneratorExit", "IOError", "ImportError",
   "ImportWarning", "IndentationError", "IndexError", "InterruptedError",
   "IsADirectoryError", "KeyError", "KeyboardInterrupt", "LookupError",
   "MemoryError", "ModuleNotFoundError", "NameError",
   "NotADirectoryError", "NotImplementedError", "OSError",
   "OverflowError", "PendingDeprecationWarning", "PermissionError",
   "ProcessLookupError", "RecursionError", "ReferenceError",
   "ResourceWarning", "RuntimeError", "RuntimeWarning",
   "StopAsyncIteration", "StopIteration", "SyntaxError", "SyntaxWarning",
   "SystemError", "SystemExit", "TabError", "TimeoutError", "TypeError",
   "UnboundLocalError", "UnicodeDecodeError", "UnicodeEncodeError",
   "UnicodeError", "UnicodeTranslateError", "UnicodeWarning",
   "UserWarning", "ValueError", "Warning", "ZeroDivisionError",
   "Ellipsis", "NotImplemented", "__build_class__", "__builtins__",
   "__debug__", "__doc__", "__import__", "__loader__", "__name__",
   "__package__", "__spec__"]

/-- Numeric value of a digit run. -/
def digitsVal (l : List Char) : Nat :=
  l.foldl (fun a c => a * 10 + (c.toNat - 48)) 0

/-- Classify a maximal identifier run: all digits give an integer literal,
`True`/`False`/`None` give the keyword constants, a leading digit in a
non-number is a syntax error (as in Python), anything else is a name. -/
def classifyWord (w : List Char) : Except PyError Tok :=
  if w.all Char.isDigit then .ok (.int (digitsVal w))
  else if String.mk w = "True" then .ok (.bool true)
  else if String.mk w = "False" then .ok (.bool false)
  else if String.mk w = "None" then .ok .nonelit
  else if (w.headD ' ').isDigit then .error .syntaxError
  else .ok (.name (String.mk w))

/-- Lexer modes: inside an identifier run, an operator run, or a string
literal. -/
inductive TMode where
  | ident
  | oper
  | strm
deriving DecidableEq

/-- Finish a pending run at a token boundary.  A pending string literal at
the end of input is unterminated, hence a syntax error. -/
def flushTok : Option (TMode × List Char) → Except PyError (List Tok)
  | none => .ok []
  | some (.ident, acc) => (classifyWord acc.reverse).map (fun t => [t])
  | some (.oper, acc) => .ok [.op (String.mk acc.reverse)]
  | some (.strm, _) => .error .syntaxError

/-- Start a fresh token at character `c` (or skip a space); characters
outside the fragment are syntax errors. -/
def dispatch (c : Char) : Except PyError (Option (TMode × List Char)) :=
  if c = ' ' then .ok none
  else if isIdentChar c then .ok (some (.ident, [c]))
  else if isOpChar c then .ok (some (.oper, [c]))
  else if c = '"' then .ok (some (.strm, []))
  else .error .syntaxError

/-- One-character-at-a-time tokenizer: spaces separate tokens, identifier
and operator runs are maximal, `"`-delimited strings have no escapes (none
are expressible in the template grammar).  `pending` is the run being
accumulated, in reverse. -/
def tokenizeAux (pending : Option (TMode × List Char)) :
    List Char → Except PyError (List Tok)
  | [] => flushTok pending
  | c :: cs =>
    match pending with
    | some (.strm, acc) =>
      if c = '"' then
        (tokenizeAux none cs).map (fun ts => .str (String.mk acc.reverse) :: ts)
      else tokenizeAux (some (.strm, c :: acc)) cs
    | some (.ident, acc) =>
      if isIdentChar c then tokenizeAux (some (.ident, c :: acc)) cs
      else
        match classifyWord acc.reverse, dispatch c with
        | .error e, _ => .error e
        | .ok _, .error e => .error e
        | .ok t, .ok p => (tokenizeAux p cs).map (fun ts => t :: ts)
    | some (.oper, acc) =>
      if isOpChar c then tokenizeAux (some (.oper, c :: acc)) cs
      else
        match dispatch c with
        | .error e => .error e
        | .ok p =>
          (tokenizeAux p cs).map (fun ts => .op (String.mk acc.reverse) :: ts)
    | none =>
      match dispatch c with
      | .error e => .error e
      | .ok p => tokenizeAux p cs

/-- Tokenize a full expression string. -/
def tokenize (l : List Char) : Except PyError (List Tok) :=
  tokenizeAux none l

/-- A value seen as a Python number: booleans are `0`/`1`, everything that
is not a number gives `none`. -/
def asNum : Value → Option Int
  | .vbool b => some (if b then 1 else 0)
  | .vint n => some n
  | .vstr _ => none
  | .vlist _ => none
  | .vnone => none
  | .vbuiltin _ => none

/-- Python `==` on the modelled values: numbers by value (so `True == 1`),
strings by content, `None` and builtins by identity, a number never
equals a string and distinct kinds never compare equal; structural list
comparison lies outside the fragment. -/
def pyEq : Value → Value → Except PyError Bool
  | a, b =>
    match asNum a, asNum b with
    | some x, some y => .ok (x = y)
    | _, _ =>
      match a, b with
      | .vstr s, .vstr t => .ok (s = t)
      | .vnone, .vnone => .ok true
      | .vbuiltin s, .vbuiltin t => .ok (s = t)
      | .vlist _, .vlist _ => .error .unsupported
      | _, _ => .ok false

/-- Python `<` on the modelled values: numeric order on numbers,
lexicographic order on strings, `TypeError` on mixed operands. -/
def pyLt : Value → Value → Except PyError Bool
  | a, b =>
    match asNum a, asNum b with
    | some x, some y => .ok (x < y)
    | _, _ =>
      match a, b with
      | .vstr s, .vstr t => .ok (s < t)
      | .vlist _, .vlist _ => .error .unsupported
      | _, _ => .error .typeError

/-- Apply a binary operator, mirroring Python semantics on the fragment. -/
def applyOp (op : String) (a b : Value) : Except PyError Value :=
  if op = "==" then (pyEq a b).map .vbool
  else if op = "!=" then (pyEq a b).map (fun r => .vbool !r)
  else if op = "<" then (pyLt a b).map .vbool
  else if op = ">" then (pyLt b a).map .vbool
  else if op = "<=" then (pyLt b a).map (fun r => .vbool !r)
  else if op = ">=" then (pyLt a b).map (fun r => .vbool !r)
  else if op = "+" then
    match asNum a, asNum b with
    | some x, some y => .ok (.vint (x + y))
    | _, _ =>
      match a, b with
      | .vstr s, .vstr t => .ok (.vstr (s ++ t))
      | _, _ => .error .typeError
  else .error .unsupported

/-- The operator spellings that are syntactically valid Python binary
operators within the modelled character set. -/
def syntacticOps : List String := ["==", "!=", "<", ">", "<=", ">=", "+", "<<", ">>"]

/-- Evaluate a single token as an atom; a name is resolved first in the
globals dictionary, then through the injected builtins, and only a name
bound in neither raises `NameError` — exactly the lookup order of
`eval(s, d)`. -/
def evalAtom (d : Dict) : Tok → Except PyError Value
  | .int n => .ok (.vint n)
  | .bool b => .ok (.vbool b)
  | .nonelit => .ok .vnone
  | .str s => .ok (.vstr s)
  | .name s =>
    match lookupDict d s with
    | some v => .ok v
    | none =>
      if s ∈ pyBuiltins then .ok (.vbuiltin s)
      else .error .nameError
  | .op _ => .error .syntaxError

/-- `eval(s, d)` on the modelled fragment: tokenize, check the shape
(an atom, or `atom op atom`), then evaluate left to right.  Syntax errors
are raised before any name is resolved, exactly as Python compiles the
whole expression first. -/
def pyEval (s : String) (d : Dict) : Except PyError Value := do
  let ts ← tokenize s.toList
  match ts with
  | [a] =>
    match a with
    | .op _ => .error .syntaxError
    | _ => evalAtom d a
  | [a, .op o, b] =>
    if o ∈ syntacticOps then do
      let va ← evalAtom d a
      let vb ← evalAtom d b
      applyOp o va vb
    else .error .syntaxError
  | [] => .error .syntaxError
  | _ => .error .unsupported

/-- Python truthiness of the modelled values (`if eval(...)`). -/
def truthy : Value → Bool
  | .vbool b => b
  | .vint n => n ≠ 0
  | .vstr s => s ≠ ""
  | .vlist l => !l.isEmpty
  | .vnone => false
  | .vbuiltin _ => true

/-! ## Kernel memory-size repair (project.py, `_parse_kernels`)

`membytes = int(math.ceil((membytes / membanks) / 4) * 4 * membanks)`
(project.py lines 254-256).  For the value ranges accepted by a successful
load the floating-point expression computes the exact ceiling, so we embed
it as exact natural-number ceiling division.  A bank count of zero raises
`ZeroDivisionError` in Python, so the model is only quoted with a
positive-bank hypothesis. -/

/-- The memory-size repair of project.py lines 251-256: round `membytes` up
to an integer number of 32-bit words per bank, i.e. to the least multiple
of `4 * membanks` that is not below it. -/
def fixMemBytes (membytes membanks : Nat) : Nat :=
  if membytes ≠ ((membytes + 4 * membanks - 1) / (4 * membanks)) * (4 * membanks)
  then ((membytes + 4 * membanks - 1) / (4 * membanks)) * (4 * membanks)
  else membytes

/-! ## Shuffler configuration (project.py, `_parse_shuffler`) and the
device descriptor registry (devices.py) -/

/-- The optional `[ARTICo3]` configuration keys consumed by
`_parse_shuffler` (`none` means the key is absent from the file). -/
structure ShufflerCfg where
  slots : Option Nat
  stages : Option Nat
  clkbuf : Option String
  rstbuf : Option String

/-- The shared-infrastructure descriptor (`class Shuffler`). -/
structure Shuffler where
  slots : Nat
  stages : Nat
  clkbuf : String
  rstbuf : String
deriving DecidableEq

/-- `_parse_shuffler` (project.py lines 195-214): every absent key falls
back to a fixed constant (3 slots, 0 pipeline stages, `"none"` buffers). -/
def parseShuffler (cfg : ShufflerCfg) : Shuffler where
  slots := cfg.slots.getD 3
  stages := cfg.stages.getD 0
  clkbuf := cfg.clkbuf.getD "none"
  rstbuf := cfg.rstbuf.getD "none"

/-- A device descriptor entry (devices.py lines 43-47). -/
structure Device where
  slots : Nat
  pipe_depth : Nat
  clk_buffer : String
  rst_buffer : String
deriving DecidableEq

/-- The device descriptor registry `fpgas` (devices.py lines 38-48):
a single entry for part `xc7z020`. -/
def fpgas : List (String × Device) :=
  [("xc7z020", ⟨4, 3, "horizontal", "global"⟩)]

/-- `fpgas[partId]`: the registry lookup of the specification's Device
Descriptor Registry contract. -/
def lookupDevice (part : String) : Option Device :=
  (fpgas.find? (fun p => p.1 = part)).map (fun p => p.2)

/-! ## Kernel parsing and project load (project.py)

`_parse_kernels` walks the `[A3Kernel@name]` sections; section names are
modelled as already split (the `@name` extraction regex is plain string
surgery).  Each `Option` field stands for `cfg.has_option`/`cfg.get` of
the corresponding key. -/

/-- One `[A3Kernel@name]` configuration section; `none` marks an absent
key, to be filled by `_parse_kernels`' defaults. -/
structure KernelSection where
  name : String
  replicas : Option Nat
  hwsrc : Option String
  membytes : Option Nat
  membanks : Option Nat
  regrw : Option Nat
  regro : Option Nat
  rstpol : Option String

/-- `class Kernel` (project.py lines 63-71). -/
structure Kernel where
  name : String
  hwsrc : Option String
  membytes : Nat
  membanks : Nat
  regrw : Nat
  regro : Nat
  rstpol : String
deriving DecidableEq

/-- `class Slot` (project.py lines 48-57): an identifier drawn from the
`Slot._id` counter plus the kernels bound to the slot. -/
structure Slot where
  id : Nat
  kerns : List Kernel
deriving DecidableEq

/-- Build one kernel from its section, applying the default-fill rules of
`_parse_kernels` (16 KiB memory, 2 banks, 4+4 registers, active-low reset)
and the memory-size repair. -/
def parseKernel (s : KernelSection) : Kernel where
  name := s.name
  hwsrc := s.hwsrc
  membytes := fixMemBytes (s.membytes.getD (16 * 2 ^ 10)) (s.membanks.getD 2)
  membanks := s.membanks.getD 2
  regrw := s.regrw.getD 4
  regro := s.regro.getD 4
  rstpol := s.rstpol.getD "low"

/-- The `for i in range(replicas)` loop of `_parse_kernels` lines 279-283:
each replica constructs a `Slot` whose id is the next counter value. -/
def mkSlots (k : Kernel) (replicas startId : Nat) : List Slot :=
  (List.range replicas).map (fun i => ⟨startId + i, [k]⟩)

/-- `_parse_kernels` over all sections, threading the `Slot._id` counter:
returns the kernel list, the slot list and the final counter value. -/
def parseKernels : List KernelSection → Nat → List Kernel × List Slot × Nat
  | [], nextId => ([], [], nextId)
  | s :: rest, nextId =>
    (parseKernel s :: (parseKernels rest (nextId + s.replicas.getD 1)).1,
     mkSlots (parseKernel s) (s.replicas.getD 1) nextId ++
       (parseKernels rest (nextId + s.replicas.getD 1)).2.1,
     (parseKernels rest (nextId + s.replicas.getD 1)).2.2)

/-- The loaded project state relevant to validation. -/
structure Project where
  kerns : List Kernel
  slots : List Slot
  shuffler : Shuffler

/-- The fatal conditions of `_check_project` (each is a `sys.exit(1)`). -/
inductive LoadError where
  | tooManySlots
  | missingHwSource
  | memTooLarge
  | badResetPolarity
deriving DecidableEq

/-- The synthetic pass-through kernel used to pad spare slots
(project.py line 293): 4096 bytes, 2 banks, 2+2 registers, reset low. -/
def dummyKernel : Kernel := ⟨"dummy", some "vhdl", 4096, 2, 2, 2, "low"⟩

/-- The per-kernel checks of `_check_project` lines 301-310, in source
order: missing hardware source, memory above 64 KiB, bad reset polarity. -/
def checkKernel (k : Kernel) : Except LoadError Unit :=
  if k.hwsrc = none then .error .missingHwSource
  else if k.membytes > 64 * 2 ^ 10 then .error .memTooLarge
  else if !(k.rstpol = "high" || k.rstpol = "low") then .error .badResetPolarity
  else .ok ()

/-- Run the per-kernel checks over the whole list, stopping at the first
failure as the Python loop does. -/
def checkKernels : List Kernel → Except LoadError Unit
  | [] => .ok ()
  | k :: rest =>
    match checkKernel k with
    | .error e => .error e
    | .ok _ => checkKernels rest

/-- The padding branch of `_check_project` lines 292-299: when fewer
slots were bound than configured, append the synthetic kernel and bind it
to the spare slots, whose ids continue from the counter. -/
def padProject (p : Project) (nextId : Nat) : Project :=
  if nextId < p.shuffler.slots then
    { p with
      kerns := p.kerns ++ [dummyKernel]
      slots := p.slots ++ (List.range (p.shuffler.slots - nextId)).map
        (fun i => ⟨nextId + i, [dummyKernel]⟩) }
  else p

/-- `_check_project` (project.py lines 286-310): reject when more slots
were bound than configured; pad spare slots with the synthetic kernel;
then check every kernel. -/
def checkProject (p : Project) (nextId : Nat) : Except LoadError Project :=
  if nextId > p.shuffler.slots then
    .error .tooManySlots
  else
    match checkKernels (padProject p nextId).kerns with
    | .error e => .error e
    | .ok _ => .ok (padProject p nextId)

/-- A whole configuration file, as consumed by `Project.load`. -/
structure ProjectCfg where
  shuffler : ShufflerCfg
  kernels : List KernelSection

/-- `Project.load` (project.py lines 147-167): the ambient `Slot._id`
counter (whatever value `prevId` it holds from earlier loads) is reset to
zero first (line 150), then the shuffler and kernel sections are parsed
and the project is checked. -/
def load (prevId : Nat) (cfg : ProjectCfg) : Except LoadError Project :=
  checkProject
    ⟨(parseKernels cfg.kernels 0).1, (parseKernels cfg.kernels 0).2.1,
      parseShuffler cfg.shuffler⟩
    (parseKernels cfg.kernels 0).2.2

/-! ## Template resolution (project.py, `get_template`)

`shutil2.join` and `shutil2.exists` belong to the filesystem collaborator;
the join is path concatenation and existence is membership in the set of
existing paths, modelled as a list. -/

/-- Modelled from the spec: the filesystem collaborator's path join
(`shutil2.join`), plain `/`-separated concatenation. -/
def joinPath (a b : String) : String := a ++ "/" ++ b

/-- `get_template` (project.py lines 132-138) over a set `fs` of existing
paths: return the project-local template path when it exists, otherwise
return the shared-repository path unconditionally. -/
def get_template (fs : List String) (dir repo name : String) : String :=
  if joinPath (joinPath dir "templates") name ∈ fs then
    joinPath (joinPath dir "templates") name
  else
    joinPath (joinPath repo "templates") name

/-! ## The tree materializer's conditional-subtree pass (template.py, `precopy`)

The filesystem is modelled as the list of existing paths; the collaborator
primitives follow the contract of the specification.  The keys `precopy`
consults bind lists of filesystem paths, so its dictionary is modelled with
path-list values. -/

/-- Split a character list at every `/`. -/
def splitSlash : List Char → List (List Char)
  | [] => [[]]
  | c :: cs =>
    match splitSlash cs with
    | [] => [[]]
    | h :: t => if c = '/' then [] :: h :: t else (c :: h) :: t

/-- Rejoin path components with `/`. -/
def joinSlash : List (List Char) → List Char
  | [] => []
  | [x] => x
  | x :: xs => x ++ '/' :: joinSlash xs

/-- Modelled from the spec: the filesystem collaborator's basename
(`shutil2.basename`), the component after the last separator. -/
def basename (p : String) : String :=
  String.mk ((splitSlash p.toList).getLastD [])

/-- Modelled from the spec: the filesystem collaborator's dirname
(`shutil2.dirname`), everything before the last separator. -/
def dirname (p : String) : String :=
  String.mk (joinSlash (splitSlash p.toList).dropLast)

/-- Modelled from the spec: `removePath(path)` deletes the named path. -/
def removePath (fs : List String) (p : String) : List String :=
  fs.filter (fun q => q ≠ p)

/-- Modelled from the spec: `copyTree(src, dst, followLinks)` places a copy
of the tree rooted at `src` inside the directory `dst`. -/
def copyTree (fs : List String) (src dst : String) : List String :=
  fs ++ [joinPath dst (basename src)]

/-- Modelled from the spec: `linkTree(src, dst)` places a link to `src`
inside the directory `dst`. -/
def linkTree (fs : List String) (src dst : String) : List String :=
  fs ++ [joinPath dst (basename src)]

/-- `re.match` of `^<a3<generate_for_(?P<key>[A-Za-z0-9_]+)>a3>` against a
file name (template.py lines 186-187): the marker prefix, a nonempty key
of word characters, then `>a3>`. -/
def matchGenerateFor (name : String) : Option String :=
  let l := name.toList
  let pre := "<a3<generate_for_".toList
  if pre.isPrefixOf l then
    let rest := l.drop pre.length
    let key := rest.takeWhile isIdentChar
    if key.length > 0 && (">a3>".toList).isPrefixOf (rest.drop key.length) then
      some (String.mk key)
    else none
  else none

/-- `precopy` (template.py lines 185-199): a file without the marker is
left alone; a marker file is removed first, and only then, when its key is
bound, every path of the bound list is copied (or linked) into the file's
directory. -/
def precopy (fs : List String) (filepath : String)
    (dictionary : List (String × List String)) (link : Bool) : List String :=
  match matchGenerateFor (basename filepath) with
  | none => fs
  | some key =>
    let fs1 := removePath fs filepath
    match (dictionary.find? (fun p => p.1 = key)).map (fun p => p.2) with
    | none => fs1
    | some paths =>
      paths.foldl
        (fun acc f =>
          if link then linkTree acc f (dirname filepath)
          else copyTree acc f (dirname filepath)) fs1

/-! ## The macro template interpreter (template.py)

The regex machinery of `preproc` cuts a file into literal text, `<a3<key>a3>`
substitution tokens, `<a3<cX>a3>` trailing separators, and nested
generate/if blocks whose nesting depth is made unambiguous by the repeated
`=` markers.  We embed that parse as the block tree `Tmpl` (the reading the
specification itself endorses for the delimiter scheme) and translate the
replacement functions `_gen_preproc`/`_if_preproc` node by node.  Besides
the produced text, the expansion functions also return the exact list of
strings handed to the host evaluator `eval`, in evaluation order (its two
call sites are template.py line 56 and line 111). -/

/-- The block tree of a template fragment: literal text, a substitution
token `<a3<key|format>a3>`, a trailing-separator token `<a3<cX>a3>` (the
payload is a single character, pattern `(?P<data>.)`), a generate block
with optional condition, and an if block `key comp value`. -/
inductive Tmpl where
  | text : String → Tmpl
  | subst : String → Option String → Tmpl
  | sep : Char → Tmpl
  | gen : String → Option String → List Tmpl → Tmpl
  | iff : String → String → String → List Tmpl → Tmpl

/-- Source text of an optional loop condition (`(cond)` when present). -/
def renderCond : Option String → String
  | none => ""
  | some c => "(" ++ c ++ ")"

/-- Source text of an optional substitution format (`|fmt` when present). -/
def renderFmt : Option String → String
  | none => ""
  | some f => "|" ++ f

mutual
/-- The source text a template node was parsed from
(`m.string[m.start():m.end()]` for block matches). -/
def render : Tmpl → String
  | .text s => s
  | .subst k f => "<a3<" ++ k ++ renderFmt f ++ ">a3>"
  | .sep c => "<a3<c" ++ String.singleton c ++ ">a3>"
  | .gen k c body =>
    "<a3<generate for " ++ k ++ renderCond c ++ ">a3>\n" ++ renderList body ++
      "<a3<end generate>a3>\n"
  | .iff k comp v body =>
    "<a3<if " ++ k ++ comp ++ v ++ ">a3>\n" ++ renderList body ++
      "<a3<end if>a3>\n"

/-- Source text of a node list. -/
def renderList : List Tmpl → String
  | [] => ""
  | t :: ts => render t ++ renderList ts
end

/-- `str(value)` for the values a substitution can render; the textual
form of a list-of-dictionaries value is outside the modelled fragment
(no template in the repository substitutes a whole list without format). -/
def pyStr : Value → String
  | .vbool b => if b then "True" else "False"
  | .vint n => toString n
  | .vstr s => s
  | .vlist _ => "<list>"
  | .vnone => "None"
  | .vbuiltin b => "<built-in " ++ b ++ ">"

/-- `format.format(value)`, modelled for `{\x7d` placeholders filled with
the textual form of the value. -/
def formatApply (fmt : String) (v : Value) : String :=
  fmt.replace "{}" (pyStr v)

/-- `ndata.count("\n")`: newline occurrences in an iteration's output. -/
def countNL (s : String) : Nat := s.toList.count '\n'

/-- The expansion result: the produced text together with the list of
strings handed to the host evaluator, or the evaluator's exception. -/
abbrev ExpRes := Except PyError (String × List String)

/-- Sequence two expansion steps: exhausted fuel and exceptions propagate. -/
def resBind (x : Option ExpRes) (f : String × List String → Option ExpRes) :
    Option ExpRes :=
  match x with
  | none => none
  | some (.error e) => some (.error e)
  | some (.ok a) => f a

/-- The call forms of the interpreter: one body node, a body node list, a
generate block, the generate iteration loop, an if block, and an if-block
body. -/
inductive ECall where
  | node (nscope : Scope) (emitSep : Bool) (t : Tmpl)
  | body (nscope : Scope) (emitSep : Bool) (ts : List Tmpl)
  | genc (scope : Scope) (key : String) (cond : Option String) (bodyT : List Tmpl)
  | iter (scope : Scope) (cond : Option String) (bodyT : List Tmpl) (total : Nat)
      (items : List Dict) (i : Nat)
  | ifc (scope : Scope) (key : String) (comp : String) (v : String) (bodyT : List Tmpl)
  | ifb (nscope : Scope) (ts : List Tmpl)

/-- The macro interpreter, translated call by call from `_gen_preproc` and
`_if_preproc`; `fuel` bounds the recursion depth (`none` means the budget
ran out; the Python recursion always terminates on finite templates, so
the theorems quantify over, or supply, sufficient fuel).

* `.node`: one body node inside a generate iteration (`_gen_` lines
  59-87).  Literal text passes through; a substitution token resolves
  against the iteration scope, an unresolved key being re-emitted as
  `<a3<key>a3>` with the format part dropped (line 73); the trailing
  separator emits its payload only when `emitSep` holds (lines 81-87);
  a nested generate recurses with the iteration scope (lines 61-64); an if
  block is left as source text for the later if pass of `preproc`.
* `.body`: a node list, outputs and evaluator traces concatenated.
* `.genc`: `_gen_` (lines 32-95) on one generate block: an unresolved key
  returns the matched source text unchanged (lines 35-36); a boolean emits
  the raw body text once or not at all (lines 40-41); an integer iterates
  that many empty frames (lines 43-44); any other non-list value returns
  the matched text (lines 46-47); a list iterates its dictionaries.
* `.iter`: the loop of lines 50-93.  `i` counts emitted iterations only
  (the `continue` on a false condition skips the increment), while the
  separator bound compares `i` against `total - 1` where `total` is the
  length of the unfiltered list (line 84).  An iteration whose expanded
  body holds more than one newline gets one extra newline appended (lines
  89-90).  The condition is evaluated against the iteration-local frame
  only (`eval(cond, local)`, line 56), and `local = {"_i": i}` updated
  with the element, so the element overrides the index key.
* `.ifc`: `_if_preproc` (lines 106-122) on one if block: build
  `"key comp value"` (line 107), evaluate it against the root frame
  `scope[0]` (lines 109-111); on a truthy result expand the body with an
  empty frame appended to the scope (lines 112-119), else the block
  contributes nothing (line 122).
* `.ifb`: the body substitution of line 119: nested if blocks are
  expanded, every other node is left as source text. -/
def interpF : Nat → ECall → Option ExpRes
  | 0, _ => none
  | fuel + 1, c =>
    match c with
    | .node nscope emitSep t =>
      match t with
      | .text s => some (.ok (s, []))
      | .subst k f =>
        match lookupScope nscope k with
        | none => some (.ok ("<a3<" ++ k ++ ">a3>", []))
        | some v =>
          match f with
          | none => some (.ok (pyStr v, []))
          | some fmt => some (.ok (formatApply fmt v, []))
      | .sep ch => some (.ok (if emitSep then String.singleton ch else "", []))
      | .gen k cond body => interpF fuel (.genc nscope k cond body)
      | .iff k comp v body => some (.ok (render (.iff k comp v body), []))
    | .body nscope emitSep ts =>
      match ts with
      | [] => some (.ok ("", []))
      | t :: rest =>
        resBind (interpF fuel (.node nscope emitSep t)) (fun (s1, tr1) =>
        resBind (interpF fuel (.body nscope emitSep rest)) (fun (s2, tr2) =>
        some (.ok (s1 ++ s2, tr1 ++ tr2))))
    | .genc scope key cond body =>
      match lookupScope scope key with
      | none => some (.ok (render (.gen key cond body), []))
      | some v =>
        match v with
        | .vbool b => some (.ok (if b then renderList body else "", []))
        | .vint n =>
          interpF fuel (.iter scope cond body n.toNat (List.replicate n.toNat []) 0)
        | .vlist items => interpF fuel (.iter scope cond body items.length items 0)
        | _ => some (.ok (render (.gen key cond body), []))
    | .iter scope cond body total items i =>
      match items with
      | [] => some (.ok ("", []))
      | r :: rest =>
        let localD : Dict := r ++ [("_i", Value.vint i)]
        let nscope : Scope := localD :: scope
        match cond with
        | some cstr =>
          match pyEval cstr localD with
          | .error e => some (.error e)
          | .ok v =>
            if truthy v then
              resBind (interpF fuel (.body nscope (decide (i < total - 1)) body))
                (fun (nd, tr1) =>
                  let ndf := if countNL nd > 1 then nd ++ "\n" else nd
                  resBind (interpF fuel (.iter scope cond body total rest (i + 1)))
                    (fun (srest, tr2) =>
                      some (.ok (ndf ++ srest, cstr :: (tr1 ++ tr2)))))
            else
              resBind (interpF fuel (.iter scope cond body total rest i))
                (fun (srest, tr2) => some (.ok (srest, cstr :: tr2)))
        | none =>
          resBind (interpF fuel (.body nscope (decide (i < total - 1)) body))
            (fun (nd, tr1) =>
              let ndf := if countNL nd > 1 then nd ++ "\n" else nd
              resBind (interpF fuel (.iter scope cond body total rest (i + 1)))
                (fun (srest, tr2) => some (.ok (ndf ++ srest, tr1 ++ tr2))))
    | .ifc scope key comp v body =>
      match pyEval (key ++ " " ++ comp ++ " " ++ v) (scope.headD []) with
      | .error e => some (.error e)
      | .ok r =>
        if truthy r then
          resBind (interpF fuel (.ifb (scope ++ [[]]) body)) (fun (s, tr) =>
            some (.ok (s, (key ++ " " ++ comp ++ " " ++ v) :: tr)))
        else some (.ok ("", [key ++ " " ++ comp ++ " " ++ v]))
    | .ifb nscope ts =>
      match ts with
      | [] => some (.ok ("", []))
      | t :: rest =>
        match t with
        | .iff k cmp v b =>
          resBind (interpF fuel (.ifc nscope k cmp v b)) (fun (s1, tr1) =>
          resBind (interpF fuel (.ifb nscope rest)) (fun (s2, tr2) =>
          some (.ok (s1 ++ s2, tr1 ++ tr2))))
        | other =>
          resBind (interpF fuel (.ifb nscope rest)) (fun (s2, tr2) =>
          some (.ok (render other ++ s2, tr2)))

/-- Expansion of one generate block (`_gen_preproc`on a match), under a
recursion-depth budget. -/
def genExpand (fuel : Nat) (scope : Scope) (key : String) (cond : Option String)
    (body : List Tmpl) : Option ExpRes :=
  interpF fuel (.genc scope key cond body)

/-- Expansion of one if block (`_if_preproc` on a match), under a
recursion-depth budget. -/
def ifExpand (fuel : Nat) (scope : Scope) (key comp v : String)
    (body : List Tmpl) : Option ExpRes :=
  interpF fuel (.ifc scope key comp v body)

/-- The number of emitted iterations of the loop of `_gen_` lines 50-93,
mirroring exactly how the code advances `i`: the condition is evaluated
per element against the iteration-local frame, a falsy result skips the
element without advancing `i`.  The result is the final value of `i`. -/
def emittedCount (cond : Option String) : List Dict → Nat → Except PyError Nat
  | [], i => .ok i
  | r :: rest, i =>
    match cond with
    | some c =>
      match pyEval c (r ++ [("_i", Value.vint i)]) with
      | .error e => .error e
      | .ok v =>
        if truthy v then emittedCount cond rest (i + 1)
        else emittedCount cond rest i
    | none => emittedCount cond rest (i + 1)

/-- A token that can stand as an operand of a restricted comparison:
a literal or a name to be resolved in the scope chain. -/
def isAtomTok : Tok → Bool
  | .op _ => false
  | _ => true

/-- Modelled from the spec: the specification's closed condition grammar —
a single comparison `key OP value` whose operator is one of the six
comparison operators and whose operands are literal scalars or scope keys.
Used only to compare the code's behaviour against the spec's restriction;
the code itself never checks this. -/
def isRestrictedComparison (s : String) : Bool :=
  match tokenize s.toList with
  | .ok [a, .op o, b] =>
    decide (o ∈ (["==", "!=", "<", ">", "<=", ">="] : List String))
      && isAtomTok a && isAtomTok b
  | _ => false

mutual
/-- All condition strings syntactically present in a template node: the
loop conditions as written, and the `"key comp value"` comparison strings
the if pass builds.  These are the only strings the interpreter may ever
hand to the host evaluator. -/
def condStrings : Tmpl → List String
  | .text _ => []
  | .subst _ _ => []
  | .sep _ => []
  | .gen _ c body => c.toList ++ condStringsList body
  | .iff k comp v body => (k ++ " " ++ comp ++ " " ++ v) :: condStringsList body

/-- Condition strings of a node list. -/
def condStringsList : List Tmpl → List String
  | [] => []
  | t :: ts => condStrings t ++ condStringsList ts
end

/-- The condition strings an interpreter call may legitimately evaluate. -/
def callConds : ECall → List String
  | .node _ _ t => condStrings t
  | .body _ _ ts => condStringsList ts
  | .genc _ _ cond body => cond.toList ++ condStringsList body
  | .iter _ cond body _ _ _ => cond.toList ++ condStringsList body
  | .ifc _ k comp v body => (k ++ " " ++ comp ++ " " ++ v) :: condStringsList body
  | .ifb _ ts => condStringsList ts

/-! # Theorems -/

/-! ## Kernel memory-size validation (claim C5) -/

/-- The repair always computes the rounded-up value (when the input is
already that value, the two branches coincide). -/
theorem fixMemBytes_eq (b k : Nat) :
    fixMemBytes b k = ((b + 4 * k - 1) / (4 * k)) * (4 * k) := by
  unfold fixMemBytes
  split
  · rfl
  · next h => exact not_ne_iff.mp h

/-- A successfully checked project is the (possibly padded) parsed one. -/
theorem checkProject_ok_eq (p q : Project) (n : Nat)
    (h : checkProject p n = .ok q) : q = padProject p n := by
  unfold checkProject at h
  split at h
  · simp at h
  · split at h
    · simp at h
    · exact (Except.ok.inj h).symm

/-- Padding either keeps the kernel list or appends the synthetic kernel. -/
theorem padProject_kerns (p : Project) (n : Nat) :
    (padProject p n).kerns = p.kerns ∨
      (padProject p n).kerns = p.kerns ++ [dummyKernel] := by
  unfold padProject
  split
  · right; rfl
  · left; rfl

/-- The repaired size is the least multiple of `4 * k` at or above the
configured size. -/
theorem fixMemBytes_spec (b k : Nat) (hk : 0 < k) :
    4 * k ∣ fixMemBytes b k ∧ b ≤ fixMemBytes b k ∧
      ∀ c, 4 * k ∣ c → b ≤ c → fixMemBytes b k ≤ c := by
  have hm : 0 < 4 * k := by omega
  rw [fixMemBytes_eq]
  refine ⟨dvd_mul_left _ _, ?_, ?_⟩
  · have h1 := (Nat.div_le_iff_le_mul_add_pred hm).1
      (Nat.le_refl ((b + 4 * k - 1) / (4 * k)))
    have h2 : 4 * k * ((b + 4 * k - 1) / (4 * k))
        = ((b + 4 * k - 1) / (4 * k)) * (4 * k) := Nat.mul_comm _ _
    omega
  · intro c hdvd hbc
    obtain ⟨d, rfl⟩ := hdvd
    have h3 : (b + 4 * k - 1) / (4 * k) ≤ d := by
      apply (Nat.div_le_iff_le_mul_add_pred hm).2
      omega
    calc ((b + 4 * k - 1) / (4 * k)) * (4 * k)
        ≤ d * (4 * k) := Nat.mul_le_mul_right _ h3
      _ = 4 * k * d := Nat.mul_comm _ _

/-- `_parse_kernels` builds exactly one kernel per section. -/
theorem parseKernels_kerns_eq (secs : List KernelSection) (n : Nat) :
    (parseKernels secs n).1 = secs.map parseKernel := by
  induction secs generalizing n with
  | nil => rfl
  | cons s rest ih => simp [parseKernels, ih]

/-- A successfully checked project keeps the parsed kernels, possibly with
the padding kernel appended. -/
theorem load_kerns_cases (prevId : Nat) (cfg : ProjectCfg) (p : Project)
    (h : load prevId cfg = .ok p) :
    p.kerns = cfg.kernels.map parseKernel ∨
      p.kerns = cfg.kernels.map parseKernel ++ [dummyKernel] := by
  have hq := checkProject_ok_eq _ _ _ h
  subst hq
  have hpk := padProject_kerns
    ⟨(parseKernels cfg.kernels 0).1, (parseKernels cfg.kernels 0).2.1,
      parseShuffler cfg.shuffler⟩ (parseKernels cfg.kernels 0).2.2
  rw [parseKernels_kerns_eq cfg.kernels 0] at hpk ⊢
  exact hpk

/-- C5: for every kernel of a successfully loaded configuration the
validated memory size is an exact multiple of `4 × bankCount`; a size
violating this is replaced by the smallest such multiple at or above it
(rounded up, never down); in particular 16000 bytes over 3 banks validates
to 16008. -/
theorem kernel_mem_rounded_up_to_bank_multiple (b k : Nat) (hk : 0 < k) :
    (4 * k ∣ fixMemBytes b k ∧ b ≤ fixMemBytes b k ∧
      (∀ c, 4 * k ∣ c → b ≤ c → fixMemBytes b k ≤ c)) ∧
    fixMemBytes 16000 3 = 16008 ∧
    (∀ prevId cfg p, load prevId cfg = .ok p →
      (∀ s ∈ cfg.kernels, 0 < s.membanks.getD 2) →
      ∀ kk ∈ p.kerns, 4 * kk.membanks ∣ kk.membytes) := by
  refine ⟨fixMemBytes_spec b k hk, by decide, ?_⟩
  intro prevId cfg p hload hbanks kk hkk
  have hdummy : 4 * dummyKernel.membanks ∣ dummyKernel.membytes := ⟨512, rfl⟩
  rcases load_kerns_cases prevId cfg p hload with hk1 | hk1 <;> rw [hk1] at hkk
  · obtain ⟨s, hs, rfl⟩ := List.mem_map.mp hkk
    exact (fixMemBytes_spec _ _ (hbanks s hs)).1
  · rcases List.mem_append.mp hkk with hmem | hmem
    · obtain ⟨s, hs, rfl⟩ := List.mem_map.mp hmem
      exact (fixMemBytes_spec _ _ (hbanks s hs)).1
    · rw [List.mem_singleton.mp hmem]
      exact hdummy

/-- Witness for C5 at a concrete configuration: one kernel section with
16000 bytes over 3 banks, loaded into a 1-slot system. -/
theorem kernel_mem_rounded_up_to_bank_multiple_witness :
    (4 * 3 ∣ fixMemBytes 16000 3 ∧ 16000 ≤ fixMemBytes 16000 3 ∧
      (∀ c, 4 * 3 ∣ c → 16000 ≤ c → fixMemBytes 16000 3 ≤ c)) ∧
    fixMemBytes 16000 3 = 16008 ∧
    (∀ prevId cfg p, load prevId cfg = .ok p →
      (∀ s ∈ cfg.kernels, 0 < s.membanks.getD 2) →
      ∀ kk ∈ p.kerns, 4 * kk.membanks ∣ kk.membytes) :=
  kernel_mem_rounded_up_to_bank_multiple 16000 3 (by decide)

/-! ## Shuffler defaults and the device registry (claim C6) -/

/-- C6 counterexample: a load whose configuration leaves all four
shared-infrastructure keys absent, targeting part `xc7z020`, gets the
fixed fallbacks (3 slots, 0 stages, no buffers) and not the registry entry
for that part (4 slots, 3 stages, horizontal/global buffers): the claimed
use of the registry does not happen. -/
theorem shuffler_defaults_not_from_registry_cex :
    parseShuffler ⟨none, none, none, none⟩ = ⟨3, 0, "none", "none"⟩ ∧
    lookupDevice "xc7z020" = some ⟨4, 3, "horizontal", "global"⟩ ∧
    (parseShuffler ⟨none, none, none, none⟩).slots ≠
      (Device.mk 4 3 "horizontal" "global").slots := by
  refine ⟨rfl, rfl, by decide⟩

/-- C6 amended: when the four shared-infrastructure keys are absent,
`_parse_shuffler` uses the fixed constants 3/0/none/none, independent of
the target part; the device registry is never consulted by a load. -/
theorem shuffler_absent_keys_use_fixed_defaults (cfg : ShufflerCfg)
    (h1 : cfg.slots = none) (h2 : cfg.stages = none)
    (h3 : cfg.clkbuf = none) (h4 : cfg.rstbuf = none) :
    parseShuffler cfg = ⟨3, 0, "none", "none"⟩ := by
  cases cfg
  simp_all [parseShuffler]

/-- Witness for the amended C6 at the all-absent configuration. -/
theorem shuffler_absent_keys_use_fixed_defaults_witness :
    parseShuffler ⟨none, none, none, none⟩ = ⟨3, 0, "none", "none"⟩ :=
  shuffler_absent_keys_use_fixed_defaults ⟨none, none, none, none⟩ rfl rfl rfl rfl

/-! ## Template resolution (claim C7) -/

/-- C7 counterexample: on a filesystem where neither the project-local nor
the shared template directory exists, `get_template` still returns the
shared-repository path — a nonexistent path presented exactly like a found
one, not a "not found" result. -/
theorem get_template_returns_nonexistent_path_cex :
    get_template [] "proj" "repo" "tmpl" = "repo/templates/tmpl" ∧
    "repo/templates/tmpl" ∉ ([] : List String) := by
  exact ⟨rfl, by simp⟩

/-- C7 amended: `get_template` is a pure total lookup returning the
project-local path when that directory exists, and otherwise the
shared-repository path unconditionally — even when that path does not
exist; no "not found" result is ever produced. -/
theorem get_template_local_else_repo (fs : List String) (dir repo name : String) :
    (joinPath (joinPath dir "templates") name ∈ fs →
      get_template fs dir repo name = joinPath (joinPath dir "templates") name) ∧
    (joinPath (joinPath dir "templates") name ∉ fs →
      get_template fs dir repo name = joinPath (joinPath repo "templates") name) := by
  constructor
  · intro h
    simp [get_template, h]
  · intro h
    simp [get_template, h]

/-- Witness for the amended C7: with only the local directory present the
local path is returned; with nothing present the repo path is returned. -/
theorem get_template_local_else_repo_witness :
    get_template ["p/templates/t"] "p" "r" "t" = "p/templates/t" ∧
    get_template [] "p" "r" "t" = "r/templates/t" :=
  ⟨(get_template_local_else_repo ["p/templates/t"] "p" "r" "t").1 (by decide),
   (get_template_local_else_repo [] "p" "r" "t").2 (by simp)⟩

/-! ## Loop blocks with unresolved keys (claim C3) -/

/-- C3 counterexample: a loop block whose key is bound in no scope frame
does not vanish from the output — `_gen_` returns the matched source text
unchanged (template.py lines 35-36), so the block (markers and body)
contributes all of its original characters. -/
theorem gen_unresolved_key_left_verbatim_cex :
    genExpand 9 [[("x", Value.vint 1)]] "missing" none [.text "hello\n"]
      = some (.ok ("<a3<generate for missing>a3>\nhello\n<a3<end generate>a3>\n",
          [])) ∧
    "<a3<generate for missing>a3>\nhello\n<a3<end generate>a3>\n" ≠ "" :=
  ⟨rfl, by decide⟩

/-- C3 amended: a loop block whose key is defined in no frame of the scope
chain is left verbatim in the expanded output: the expansion emits exactly
the source text of the whole block and evaluates nothing. -/
theorem gen_unresolved_key_left_verbatim (fuel : Nat) (scope : Scope)
    (key : String) (cond : Option String) (body : List Tmpl)
    (h : lookupScope scope key = none) :
    genExpand (fuel + 1) scope key cond body
      = some (.ok (render (.gen key cond body), [])) := by
  simp [genExpand, interpF, h]

/-- Witness for the amended C3 at a concrete scope and block. -/
theorem gen_unresolved_key_left_verbatim_witness :
    genExpand 1 [[("x", Value.vint 1)]] "missing" none [.text "hi"]
      = some (.ok (render (.gen "missing" none [.text "hi"]), [])) :=
  gen_unresolved_key_left_verbatim 0 [[("x", Value.vint 1)]] "missing" none
    [.text "hi"] rfl

/-! ## The conditional-subtree pass on absent keys (claim C4) -/

/-- C4 counterexample: a `generate_for` marker file whose key is absent
from the context is NOT left untouched — `precopy` removes it before ever
checking the key (template.py line 192), and nothing replaces it. -/
theorem precopy_removes_marker_on_absent_key_cex :
    precopy ["t/<a3<generate_for_opt>a3>"] "t/<a3<generate_for_opt>a3>" [] false
      = [] ∧
    "t/<a3<generate_for_opt>a3>" ∈ ["t/<a3<generate_for_opt>a3>"] ∧
    "t/<a3<generate_for_opt>a3>" ∉
      precopy ["t/<a3<generate_for_opt>a3>"] "t/<a3<generate_for_opt>a3>" [] false :=
  ⟨rfl, by decide, by decide⟩

/-- C4 amended: a marker file is always deleted once its name matches, and
when its key is absent from the context nothing is copied in its place:
the pass is exactly the removal of the file. -/
theorem precopy_absent_key_deletes_file (fs : List String) (filepath : String)
    (dict : List (String × List String)) (link : Bool) (key : String)
    (hm : matchGenerateFor (basename filepath) = some key)
    (hk : dict.find? (fun p => p.1 = key) = none) :
    precopy fs filepath dict link = removePath fs filepath ∧
    filepath ∉ precopy fs filepath dict link := by
  have h1 : precopy fs filepath dict link = removePath fs filepath := by
    simp [precopy, hm, hk]
  refine ⟨h1, ?_⟩
  rw [h1]
  unfold removePath
  intro hmem
  have := (List.mem_filter.mp hmem).2
  simp at this

/-- Witness for the amended C4 at a concrete filesystem and context. -/
theorem precopy_absent_key_deletes_file_witness :
    precopy ["d/<a3<generate_for_k>a3>", "d/keep"] "d/<a3<generate_for_k>a3>"
        [("other", ["x"])] true
      = removePath ["d/<a3<generate_for_k>a3>", "d/keep"] "d/<a3<generate_for_k>a3>" ∧
    "d/<a3<generate_for_k>a3>" ∉
      precopy ["d/<a3<generate_for_k>a3>", "d/keep"] "d/<a3<generate_for_k>a3>"
        [("other", ["x"])] true :=
  precopy_absent_key_deletes_file ["d/<a3<generate_for_k>a3>", "d/keep"]
    "d/<a3<generate_for_k>a3>" [("other", ["x"])] true "k" (by decide) (by decide)

/-! ## Extra newline after multi-line iterations (claim C10) -/

/-- C10: in the loop of `_gen_`, an emitted iteration contributes its
expanded body plus one extra newline exactly when the expanded body holds
more than one newline (template.py lines 89-90); consequently the loop
output is not the plain concatenation of the expanded bodies, as the
concrete instance shows: one iteration whose body expands to `a\nb\nc`
produces the loop output `a\nb\nc\n`. -/
theorem gen_iteration_appends_extra_newline
    (fuel : Nat) (scope : Scope) (body : List Tmpl) (total : Nat)
    (r : Dict) (rest : List Dict) (i : Nat) (nd srest : String)
    (tr1 tr2 : List String)
    (hbody : interpF fuel (.body ((r ++ [("_i", Value.vint i)]) :: scope)
        (decide (i < total - 1)) body) = some (.ok (nd, tr1)))
    (hrest : interpF fuel (.iter scope none body total rest (i + 1))
        = some (.ok (srest, tr2))) :
    interpF (fuel + 1) (.iter scope none body total (r :: rest) i)
      = some (.ok ((if countNL nd > 1 then nd ++ "\n" else nd) ++ srest,
          tr1 ++ tr2)) ∧
    genExpand 9 [[("n", Value.vint 1)]] "n" none [.text "a\nb\nc"]
      = some (.ok ("a\nb\nc\n", [])) ∧
    interpF 8 (.body [[("_i", Value.vint 0)], [("n", Value.vint 1)]]
        (decide ((0 : Nat) < 1 - 1)) [.text "a\nb\nc"])
      = some (.ok ("a\nb\nc", [])) ∧
    ("a\nb\nc\n" : String) ≠ "a\nb\nc" := by
  refine ⟨?_, rfl, rfl, by decide⟩
  simp [interpF, hbody, hrest, resBind]

/-- Witness for C10: the general iteration equation applied to the same
concrete one-iteration loop. -/
theorem gen_iteration_appends_extra_newline_witness :
    interpF 9 (.iter [[("n", Value.vint 1)]] none [.text "a\nb\nc"] 1 [[]] 0)
      = some (.ok ((if countNL "a\nb\nc" > 1 then "a\nb\nc" ++ "\n"
          else "a\nb\nc") ++ "", [] ++ [])) :=
  (gen_iteration_appends_extra_newline 8 [[("n", Value.vint 1)]]
    [.text "a\nb\nc"] 1 [] [] 0 "a\nb\nc" "" [] [] rfl rfl).1

/-! ## Tokenizer lemmas

General facts about the lexer, needed to evaluate `"key comp value"`
strings with an abstract key, as `_if_preproc` builds them. -/

/-- `toList` distributes over string append. -/
theorem string_toList_append (a b : String) :
    (a ++ b).toList = a.toList ++ b.toList := by
  simp [String.toList, String.data_append]

/-- An identifier character is not a space. -/
theorem identChar_ne_space {c : Char} (h : isIdentChar c = true) : c ≠ ' ' := by
  intro he
  subst he
  simp [isIdentChar, Char.isAlphanum] at h

/-- The five operator characters, explicitly. -/
theorem opChar_cases {c : Char} (h : isOpChar c = true) :
    c = '<' ∨ c = '>' ∨ c = '=' ∨ c = '!' ∨ c = '+' := by
  simp only [isOpChar, Bool.or_eq_true, decide_eq_true_eq] at h
  tauto

/-- An operator character is neither a space nor an identifier character. -/
theorem opChar_not_identChar {c : Char} (h : isOpChar c = true) :
    c ≠ ' ' ∧ isIdentChar c = false := by
  rcases opChar_cases h with rfl | rfl | rfl | rfl | rfl <;> exact ⟨by decide, by decide⟩

/-- A digit is an identifier character. -/
theorem digit_isIdentChar {c : Char} (h : c.isDigit = true) :
    isIdentChar c = true := by
  simp [isIdentChar, Char.isAlphanum, h]

/-- Lexing an identifier run accumulates it (reversed) into the pending
token. -/
theorem tokenizeAux_ident_run (w : List Char)
    (hw : ∀ c ∈ w, isIdentChar c = true) :
    ∀ (acc l : List Char),
      tokenizeAux (some (.ident, acc)) (w ++ l)
        = tokenizeAux (some (.ident, w.reverse ++ acc)) l := by
  induction w with
  | nil => intro acc l; simp
  | cons c w ih =>
    intro acc l
    have hc := hw c (by simp)
    have hw2 : ∀ x ∈ w, isIdentChar x = true := fun x hx => hw x (by simp [hx])
    simp only [List.cons_append]
    rw [show tokenizeAux (some (.ident, acc)) (c :: (w ++ l))
        = tokenizeAux (some (.ident, c :: acc)) (w ++ l) from by
      simp [tokenizeAux, hc]]
    rw [ih hw2 (c :: acc) l]
    simp

/-- Lexing an operator run accumulates it (reversed) into the pending
token. -/
theorem tokenizeAux_oper_run (w : List Char)
    (hw : ∀ c ∈ w, isOpChar c = true) :
    ∀ (acc l : List Char),
      tokenizeAux (some (.oper, acc)) (w ++ l)
        = tokenizeAux (some (.oper, w.reverse ++ acc)) l := by
  induction w with
  | nil => intro acc l; simp
  | cons c w ih =>
    intro acc l
    have hc := hw c (by simp)
    have hw2 : ∀ x ∈ w, isOpChar x = true := fun x hx => hw x (by simp [hx])
    simp only [List.cons_append]
    rw [show tokenizeAux (some (.oper, acc)) (c :: (w ++ l))
        = tokenizeAux (some (.oper, c :: acc)) (w ++ l) from by
      simp [tokenizeAux, hc]]
    rw [ih hw2 (c :: acc) l]
    simp

/-- A space ends an identifier run: the pending characters are classified
and emitted. -/
theorem tokenizeAux_ident_space (acc l : List Char) (t : Tok)
    (hcw : classifyWord acc.reverse = .ok t) :
    tokenizeAux (some (.ident, acc)) (' ' :: l)
      = (tokenizeAux none l).map (fun ts => t :: ts) := by
  have h1 : isIdentChar ' ' = false := by decide
  simp [tokenizeAux, h1, hcw, dispatch]

/-- A space ends an operator run: the pending characters become an
operator token. -/
theorem tokenizeAux_oper_space (acc l : List Char) :
    tokenizeAux (some (.oper, acc)) (' ' :: l)
      = (tokenizeAux none l).map (fun ts => .op (String.mk acc.reverse) :: ts) := by
  have h1 : isOpChar ' ' = false := by decide
  simp [tokenizeAux, h1, dispatch]

/-- Between tokens, an identifier character opens an identifier run. -/
theorem tokenizeAux_none_ident (c : Char) (cs : List Char)
    (hc : isIdentChar c = true) :
    tokenizeAux none (c :: cs) = tokenizeAux (some (.ident, [c])) cs := by
  have h1 : c ≠ ' ' := identChar_ne_space hc
  simp [tokenizeAux, dispatch, h1, hc]

/-- Between tokens, an operator character opens an operator run. -/
theorem tokenizeAux_none_oper (c : Char) (cs : List Char)
    (hc : isOpChar c = true) :
    tokenizeAux none (c :: cs) = tokenizeAux (some (.oper, [c])) cs := by
  obtain ⟨h1, h2⟩ := opChar_not_identChar hc
  simp [tokenizeAux, dispatch, h1, h2, hc]

/-- A word that is no number and no keyword constant and does not start
with a digit classifies as a name. -/
theorem classifyWord_name (w : List Char) (h1 : w ≠ [])
    (h2 : (w.headD ' ').isDigit = false)
    (h3 : String.mk w ≠ "True") (h4 : String.mk w ≠ "False")
    (h5 : String.mk w ≠ "None") :
    classifyWord w = .ok (.name (String.mk w)) := by
  have hall : w.all Char.isDigit = false := by
    cases w with
    | nil => simp at h1
    | cons c cs =>
      simp only [List.headD_cons] at h2
      simp [List.all_cons, h2]
  have h2b : (w.head?.getD ' ').isDigit = false := by
    cases w with
    | nil => simp at h1
    | cons c cs => simpa using h2
  simp [classifyWord, hall, h2, h2b, h3, h4, h5]

/-- A digit run classifies as an integer literal. -/
theorem classifyWord_int (w : List Char) (h : w.all Char.isDigit = true) :
    classifyWord w = .ok (.int (digitsVal w)) := by
  simp [classifyWord, h]

/-- Tokenizing `key ++ " " ++ comp ++ " " ++ value` for an identifier
`key`, a comparison operator `comp` and a digit literal `value` yields
exactly the three tokens the if pass's comparison is made of. -/
theorem tokenize_key_comp_value (key comp value : String)
    (hkey1 : key.toList ≠ [])
    (hkey2 : ∀ c ∈ key.toList, isIdentChar c = true)
    (hkey3 : (key.toList.headD ' ').isDigit = false)
    (hkeyT : key ≠ "True") (hkeyF : key ≠ "False") (hkeyN : key ≠ "None")
    (hcomp : comp ∈ (["==", "!=", "<", ">", "<=", ">="] : List String))
    (hval1 : value.toList ≠ []) (hval2 : ∀ c ∈ value.toList, c.isDigit = true) :
    tokenize (key ++ " " ++ comp ++ " " ++ value).toList
      = .ok [.name key, .op comp, .int (digitsVal value.toList)] := by
  have hsplit : (key ++ " " ++ comp ++ " " ++ value).toList
      = key.toList ++ (' ' :: (comp.toList ++ (' ' :: value.toList))) := by
    simp [string_toList_append]
  rw [hsplit]
  unfold tokenize
  obtain ⟨c, w, hkw⟩ : ∃ c w, key.toList = c :: w := by
    cases hkl : key.toList with
    | nil => exact absurd hkl hkey1
    | cons c w => exact ⟨c, w, rfl⟩
  rw [hkw]
  have hc : isIdentChar c = true := hkey2 c (by rw [hkw]; simp)
  have hw : ∀ x ∈ w, isIdentChar x = true := fun x hx =>
    hkey2 x (by rw [hkw]; simp [hx])
  rw [List.cons_append, tokenizeAux_none_ident c _ hc,
    tokenizeAux_ident_run w hw [c] _]
  have hrev : (w.reverse ++ [c]).reverse = c :: w := by simp
  have hname : classifyWord (w.reverse ++ [c]).reverse = .ok (.name key) := by
    rw [hrev, ← hkw]
    exact classifyWord_name key.toList hkey1 hkey3 hkeyT hkeyF hkeyN
  rw [tokenizeAux_ident_space _ _ _ hname]
  -- the value run, shared by all six operator cases
  have hvalrun : tokenize value.toList = .ok [.int (digitsVal value.toList)] := by
    obtain ⟨d, dv, hdw⟩ : ∃ d dv, value.toList = d :: dv := by
      cases hvl : value.toList with
      | nil => exact absurd hvl hval1
      | cons d dv => exact ⟨d, dv, rfl⟩
    have hd : isIdentChar d = true :=
      digit_isIdentChar (hval2 d (by rw [hdw]; simp))
    have hdv : ∀ x ∈ dv, isIdentChar x = true := fun x hx =>
      digit_isIdentChar (hval2 x (by rw [hdw]; simp [hx]))
    have hall : value.toList.all Char.isDigit = true :=
      List.all_eq_true.mpr hval2
    unfold tokenize
    rw [hdw, show (d :: dv) = (d :: dv) ++ [] from by simp,
      List.cons_append, tokenizeAux_none_ident d _ hd,
      tokenizeAux_ident_run dv hdv [d] [],
      show tokenizeAux (some (TMode.ident, dv.reverse ++ [d])) []
        = (classifyWord (dv.reverse ++ [d]).reverse).map (fun t => [t]) from rfl]
    have : (dv.reverse ++ [d]).reverse = d :: dv := by simp
    rw [this, ← hdw, classifyWord_int value.toList hall]
    have hdw2 : value.data = d :: dv := hdw
    simp [hdw2, Except.map]
  -- now the operator: six concrete cases
  have hop : tokenizeAux none (comp.toList ++ (' ' :: value.toList))
      = (tokenize value.toList).map (fun ts => .op comp :: ts) := by
    fin_cases hcomp <;>
      simp [tokenize, tokenizeAux, dispatch, isOpChar, isIdentChar, Char.isAlphanum]
  rw [hop, hvalrun]
  rfl

/-! ## Conditional blocks with unresolved keys (claim C2) -/

/-- Evaluating the if pass's comparison string for an identifier key
bound neither in the globals dictionary nor among the builtin names
raises `NameError`, whatever the operator and the literal value are. -/
theorem pyEval_unresolved_key (key comp value : String) (d : Dict)
    (hkey1 : key.toList ≠ [])
    (hkey2 : ∀ c ∈ key.toList, isIdentChar c = true)
    (hkey3 : (key.toList.headD ' ').isDigit = false)
    (hkeyT : key ≠ "True") (hkeyF : key ≠ "False") (hkeyN : key ≠ "None")
    (hkeyB : key ∉ pyBuiltins)
    (hcomp : comp ∈ (["==", "!=", "<", ">", "<=", ">="] : List String))
    (hval1 : value.toList ≠ []) (hval2 : ∀ c ∈ value.toList, c.isDigit = true)
    (hd : lookupDict d key = none) :
    pyEval (key ++ " " ++ comp ++ " " ++ value) d = .error .nameError := by
  unfold pyEval
  rw [tokenize_key_comp_value key comp value hkey1 hkey2 hkey3 hkeyT hkeyF
    hkeyN hcomp hval1 hval2]
  have hsyn : comp ∈ syntacticOps := by fin_cases hcomp <;> decide
  simp [hsyn, evalAtom, hd, hkeyB, Bind.bind, Except.bind]

/-- C2 counterexample: a conditional block whose key `missing` is bound
nowhere raises `NameError` instead of expanding to nothing: the expansion
does not complete normally. -/
theorem if_unresolved_key_raises_cex :
    ifExpand 9 [[("a", Value.vint 1)]] "missing" "==" "1" [.text "body\n"]
      = some (.error .nameError) ∧
    ifExpand 9 [[("a", Value.vint 1)]] "missing" "==" "1" [.text "body\n"]
      ≠ some (.ok ("", ["missing == 1"])) := by
  refine ⟨rfl, ?_⟩
  intro h
  rw [show ifExpand 9 [[("a", Value.vint 1)]] "missing" "==" "1" [.text "body\n"]
      = some (.error .nameError) from rfl] at h
  simp at h

/-- C2 amended: a conditional block whose key is an identifier bound
neither in the root dictionary (the only frame the comparison is
evaluated against) nor among Python's builtin names — and is none of the
keyword constants `True`/`False`/`None` — aborts the whole expansion with
`NameError`; it is not treated as a failed comparison.  A builtin-named
unbound key, by contrast, does behave as the original claim said: `eval`
resolves it through the injected builtins, the comparison against an
integer literal is simply false, and the block is omitted — as the
concrete `len` conjunct shows. -/
theorem if_unresolved_key_name_error (fuel : Nat) (scope : Scope)
    (key comp value : String) (body : List Tmpl)
    (hkey1 : key.toList ≠ [])
    (hkey2 : ∀ c ∈ key.toList, isIdentChar c = true)
    (hkey3 : (key.toList.headD ' ').isDigit = false)
    (hkeyT : key ≠ "True") (hkeyF : key ≠ "False") (hkeyN : key ≠ "None")
    (hkeyB : key ∉ pyBuiltins)
    (hcomp : comp ∈ (["==", "!=", "<", ">", "<=", ">="] : List String))
    (hval1 : value.toList ≠ []) (hval2 : ∀ c ∈ value.toList, c.isDigit = true)
    (hd : lookupDict (scope.headD []) key = none) :
    ifExpand (fuel + 1) scope key comp value body
      = some (.error .nameError) ∧
    ifExpand 9 [[("a", Value.vint 1)]] "len" "==" "1" [.text "body\n"]
      = some (.ok ("", ["len == 1"])) := by
  refine ⟨?_, rfl⟩
  have hp := pyEval_unresolved_key key comp value (scope.headD [])
    hkey1 hkey2 hkey3 hkeyT hkeyF hkeyN hkeyB hcomp hval1 hval2 hd
  rw [List.headD_eq_head?_getD] at hp
  simp [ifExpand, interpF, hp]

/-- Witness for the amended C2 at a concrete block and scope. -/
theorem if_unresolved_key_name_error_witness :
    ifExpand 1 [[("a", Value.vint 1)]] "missing" "==" "1" [.text "b"]
      = some (.error .nameError) :=
  (if_unresolved_key_name_error 0 [[("a", Value.vint 1)]] "missing" "==" "1"
    [.text "b"] (by decide) (by decide) (by decide) (by decide) (by decide)
    (by decide) (by decide) (by decide) (by decide) (by decide) rfl).1

/-! ## Trailing-separator counting (claim C8) -/

/-- A loop body consisting of one separator token expands to the payload
when the separator is enabled, and to nothing otherwise. -/
theorem interpF_body_sep (fuel : Nat) (hf : 2 ≤ fuel) (ns : Scope) (es : Bool) :
    interpF fuel (.body ns es [.sep ','])
      = some (.ok (if es then "," else "", [])) := by
  obtain ⟨f, rfl⟩ : ∃ f, fuel = f + 2 := ⟨fuel - 2, by omega⟩
  have hsc : String.singleton ',' = "," := rfl
  cases es <;> simp [interpF, resBind, hsc]

/-- The emitted-iteration counter never decreases. -/
theorem emittedCount_le (cond : Option String) :
    ∀ (items : List Dict) (i N : Nat),
      emittedCount cond items i = .ok N → i ≤ N := by
  intro items
  induction items with
  | nil =>
    intro i N h
    simp [emittedCount] at h
    omega
  | cons r rest ih =>
    intro i N h
    cases cond with
    | none =>
      have := ih (i + 1) N (by simpa [emittedCount] using h)
      omega
    | some c =>
      cases hpe : pyEval c (r ++ [("_i", Value.vint i)]) with
      | error e => simp [emittedCount, hpe] at h
      | ok v =>
        simp only [emittedCount, hpe] at h
        by_cases ht : truthy v = true
        · rw [if_pos ht] at h
          have := ih (i + 1) N h
          omega
        · rw [if_neg ht] at h
          exact ih i N h

/-- With no per-iteration condition, every element is emitted. -/
theorem emittedCount_none (items : List Dict) :
    ∀ i, emittedCount none items i = .ok (i + items.length) := by
  induction items with
  | nil => intro i; simp [emittedCount]
  | cons r rest ih =>
    intro i
    simp [emittedCount, ih (i + 1)]
    omega

/-- The iteration loop over a single-separator body: the payload is
emitted once per emitted iteration whose emitted index is below
`total - 1`, and the condition string is evaluated once per element. -/
theorem sep_loop_aux (scope : Scope) (cond : Option String) (total : Nat) :
    ∀ (items : List Dict) (fuel : Nat), items.length + 2 ≤ fuel →
      ∀ (i N : Nat),
      emittedCount cond items i = .ok N →
      interpF fuel (.iter scope cond [.sep ','] total items i)
        = some (.ok
            (String.mk (List.replicate (min N (total - 1) - min i (total - 1)) ','),
             match cond with
             | some c => List.replicate items.length c
             | none => [])) := by
  intro items
  induction items with
  | nil =>
    intro fuel hf i N h
    obtain ⟨f, rfl⟩ : ∃ f, fuel = f + 1 := ⟨fuel - 1, by omega⟩
    simp [emittedCount] at h
    subst h
    cases cond <;> simp [interpF]
  | cons r rest ih =>
    intro fuel hf i N h
    obtain ⟨f, rfl⟩ : ∃ f, fuel = f + 1 := ⟨fuel - 1, by omega⟩
    have hfr : rest.length + 2 ≤ f := by
      simp only [List.length_cons] at hf
      omega
    have hstep : ∀ b : Bool,
        (if countNL (if b = true then "," else "") > 1
          then (if b = true then "," else "") ++ "\n"
          else (if b = true then "," else ""))
        = (if b = true then "," else "") := by
      intro b; cases b <;> simp [countNL]
    cases cond with
    | none =>
      have hN : emittedCount none rest (i + 1) = .ok N := by
        simpa [emittedCount] using h
      have hle := emittedCount_le none rest (i + 1) N hN
      simp only [interpF]
      rw [interpF_body_sep f (by omega), ih f hfr (i + 1) N hN]
      simp only [resBind, hstep]
      by_cases hlt : i < total - 1
      · have h1 : min i (total - 1) = i := by omega
        have h2 : min (i + 1) (total - 1) = i + 1 := by omega
        have h3 : i + 1 ≤ min N (total - 1) := by omega
        rw [h1, h2]
        simp only [decide_eq_true_eq, if_pos hlt]
        have h4 : min N (total - 1) - i = (min N (total - 1) - (i + 1)) + 1 := by
          omega
        rw [h4, List.replicate_succ]
        rfl
      · have h1 : min i (total - 1) = total - 1 := by omega
        have h2 : min (i + 1) (total - 1) = total - 1 := by omega
        have h3 : min N (total - 1) = total - 1 := by omega
        rw [h1, h2, h3]
        simp only [decide_eq_true_eq, if_neg hlt]
        simp [List.replicate_succ]
    | some c =>
      cases hpe : pyEval c (r ++ [("_i", Value.vint i)]) with
      | error e => simp [emittedCount, hpe] at h
      | ok v =>
        simp only [emittedCount, hpe] at h
        simp only [interpF, hpe]
        by_cases ht : truthy v = true
        · rw [if_pos ht] at h
          have hle := emittedCount_le (some c) rest (i + 1) N h
          rw [if_pos ht, interpF_body_sep f (by omega), ih f hfr (i + 1) N h]
          simp only [resBind, hstep]
          by_cases hlt : i < total - 1
          · have h1 : min i (total - 1) = i := by omega
            have h2 : min (i + 1) (total - 1) = i + 1 := by omega
            have h3 : i + 1 ≤ min N (total - 1) := by omega
            rw [h1, h2]
            simp only [decide_eq_true_eq, if_pos hlt]
            have h4 : min N (total - 1) - i = (min N (total - 1) - (i + 1)) + 1 := by
              omega
            rw [h4, List.replicate_succ]
            rfl
          · have h1 : min i (total - 1) = total - 1 := by omega
            have h2 : min (i + 1) (total - 1) = total - 1 := by omega
            have h3 : min N (total - 1) = total - 1 := by omega
            rw [h1, h2, h3]
            simp only [decide_eq_true_eq, if_neg hlt]
            simp [List.replicate_succ]
        · rw [if_neg ht] at h
          rw [if_neg ht, ih f hfr i N h]
          simp [resBind, List.replicate_succ]

/-- C8 counterexample: a loop over a two-element sequence whose condition
suppresses the second element performs `N = 1` emitted iteration, so the
claim demands the separator payload be emitted `N - 1 = 0` times — but
the code emits it once, because the bound compares the emitted index
against the unfiltered length (template.py line 84). -/
theorem sep_payload_not_n_minus_one_cex :
    emittedCount (some "x == 1") [[("x", Value.vint 1)], [("x", Value.vint 0)]] 0
      = .ok 1 ∧
    genExpand 9 [[("xs", Value.vlist [[("x", Value.vint 1)], [("x", Value.vint 0)]])]]
        "xs" (some "x == 1") [.sep ',']
      = some (.ok (",", ["x == 1", "x == 1"])) ∧
    ("," : String) ≠ "" :=
  ⟨rfl, rfl, by decide⟩

/-- C8 amended: over a resolved sequence of `L` elements with `N` emitted
iterations, a separator token emits its payload exactly `min N (L - 1)`
times — after every emitted iteration whose zero-based emitted index is
below `L - 1`.  This equals `N - 1` exactly in the unsuppressed case (no
condition, where `N = L`), but can exceed `N - 1` when a condition
suppresses trailing elements. -/
theorem sep_payload_min_count (scope : Scope) (key : String)
    (cond : Option String) (items : List Dict) (N fuel : Nat)
    (hfuel : items.length + 3 ≤ fuel)
    (hk : lookupScope scope key = some (.vlist items))
    (hN : emittedCount cond items 0 = .ok N) :
    genExpand fuel scope key cond [.sep ',']
      = some (.ok (String.mk (List.replicate (min N (items.length - 1)) ','),
          match cond with
          | some c => List.replicate items.length c
          | none => [])) ∧
    (cond = none → N = items.length) := by
  constructor
  · obtain ⟨f, rfl⟩ : ∃ f, fuel = f + 1 := ⟨fuel - 1, by omega⟩
    have haux := sep_loop_aux scope cond items.length items f (by omega) 0 N hN
    simp only [Nat.zero_min, Nat.min_zero, Nat.sub_zero] at haux
    simp only [genExpand, interpF, hk]
    cases cond <;> exact haux
  · intro hc
    subst hc
    have := emittedCount_none items 0
    rw [this] at hN
    simpa using hN.symm

/-- Witness for the amended C8 at the counterexample's loop: one emitted
iteration over a two-element list gives `min 1 1 = 1` payload. -/
theorem sep_payload_min_count_witness :
    genExpand 5 [[("xs", Value.vlist [[("x", Value.vint 1)], [("x", Value.vint 0)]])]]
        "xs" (some "x == 1") [.sep ',']
      = some (.ok (String.mk (List.replicate (min 1 (2 - 1)) ','),
          List.replicate 2 "x == 1")) :=
  (sep_payload_min_count
    [[("xs", Value.vlist [[("x", Value.vint 1)], [("x", Value.vint 0)]])]] "xs"
    (some "x == 1") [[("x", Value.vint 1)], [("x", Value.vint 0)]] 1 5
    (by decide) rfl rfl).1

/-! ## Slot identifiers and padding (claim C9) -/

/-- The replica slots of one section carry consecutive ids from the
counter. -/
theorem mkSlots_ids (k : Kernel) (r start : Nat) :
    (mkSlots k r start).map Slot.id = List.range' start r := by
  simp [mkSlots, List.range'_eq_map_range]

/-- The final counter value equals the start plus the number of slots
built. -/
theorem parseKernels_nextId (secs : List KernelSection) :
    ∀ n, (parseKernels secs n).2.2 = n + (parseKernels secs n).2.1.length := by
  induction secs with
  | nil => intro n; simp [parseKernels]
  | cons s rest ih =>
    intro n
    simp [parseKernels, mkSlots, ih (n + s.replicas.getD 1)]
    omega

/-- The slot ids produced by `_parse_kernels` are consecutive from the
starting counter value. -/
theorem parseKernels_ids (secs : List KernelSection) :
    ∀ n, (parseKernels secs n).2.1.map Slot.id
      = List.range' n (parseKernels secs n).2.1.length := by
  induction secs with
  | nil => intro n; simp [parseKernels]
  | cons s rest ih =>
    intro n
    simp only [parseKernels, List.map_append, mkSlots_ids, ih (n + s.replicas.getD 1),
      List.length_append]
    rw [show (mkSlots (parseKernel s) (s.replicas.getD 1) n).length
        = s.replicas.getD 1 from by simp [mkSlots]]
    rw [List.range'_append_1]
    rw [Nat.add_comm]

/-- Padding keeps the shuffler. -/
theorem padProject_shuffler (p : Project) (n : Nat) :
    (padProject p n).shuffler = p.shuffler := by
  unfold padProject
  split <;> rfl

/-- A successful check implies the counter did not exceed the capacity. -/
theorem checkProject_ok_le (p q : Project) (n : Nat)
    (h : checkProject p n = .ok q) : n ≤ p.shuffler.slots := by
  unfold checkProject at h
  split at h
  · simp at h
  · next hgt => omega

/-- C9: after every successful load the slot ids are exactly `0..slots-1`
in order (hence unique, whatever the ambient counter held before the
load), the number of slots equals the configured capacity, and every slot
beyond the kernel-bound ones is bound to the synthetic pass-through kernel
of 4096 bytes, 2 banks and active-low reset. -/
theorem slots_sequential_ids_and_padding (prevId : Nat) (cfg : ProjectCfg)
    (p : Project) (h : load prevId cfg = .ok p) :
    p.slots.map Slot.id = List.range p.shuffler.slots ∧
    (p.slots.map Slot.id).Nodup ∧
    p.slots.length = p.shuffler.slots ∧
    (∀ s ∈ p.slots.drop (parseKernels cfg.kernels 0).2.1.length,
      s.kerns = [dummyKernel]) ∧
    dummyKernel.membytes = 4096 ∧ dummyKernel.membanks = 2 ∧
    dummyKernel.rstpol = "low" := by
  have hle := checkProject_ok_le _ _ _ h
  have hq := checkProject_ok_eq _ _ _ h
  subst hq
  rw [padProject_shuffler] at *
  set parsed := parseKernels cfg.kernels 0 with hparsed
  set sh := parseShuffler cfg.shuffler with hsh
  have hle2 : parsed.2.2 ≤ sh.slots := hle
  have hnid : parsed.2.2 = parsed.2.1.length := by
    rw [hparsed, parseKernels_nextId cfg.kernels 0]
    omega
  have hids : parsed.2.1.map Slot.id = List.range' 0 parsed.2.1.length := by
    rw [hparsed]
    exact parseKernels_ids cfg.kernels 0
  have hmain : (padProject ⟨parsed.1, parsed.2.1, sh⟩ parsed.2.2).slots.map Slot.id
        = List.range sh.slots ∧
      (∀ s ∈ (padProject ⟨parsed.1, parsed.2.1, sh⟩ parsed.2.2).slots.drop
          parsed.2.1.length, s.kerns = [dummyKernel]) := by
    unfold padProject
    split
    · next hlt =>
      constructor
      · simp only [List.map_append, hids, List.map_map]
        rw [show (List.map (Slot.id ∘ fun i =>
            (⟨parsed.2.2 + i, [dummyKernel]⟩ : Slot)) (List.range (sh.slots - parsed.2.2)))
            = List.range' parsed.2.2 (sh.slots - parsed.2.2) from by
          simp [List.range'_eq_map_range]]
        rw [← hnid,
          show List.range' parsed.2.2 (sh.slots - parsed.2.2)
            = List.range' (0 + parsed.2.2) (sh.slots - parsed.2.2) from by
              rw [Nat.zero_add],
          List.range'_append_1, List.range_eq_range']
        congr 1
        omega
      · intro s hs
        dsimp only at hs
        rw [List.drop_left] at hs
        obtain ⟨i, -, rfl⟩ := List.mem_map.mp hs
        rfl
    · next hlt =>
      have hlt2 : ¬ parsed.2.2 < sh.slots := hlt
      have heq : parsed.2.2 = sh.slots := by omega
      constructor
      · simp only [hids, ← hnid, heq, List.range_eq_range']
      · intro s hs
        have hlen : parsed.2.1.length = parsed.2.2 := hnid.symm
        rw [show (Project.mk parsed.1 parsed.2.1 sh).slots = parsed.2.1 from rfl] at hs
        rw [List.drop_eq_nil_of_le (by omega)] at hs
        simp at hs
  refine ⟨hmain.1, ?_, ?_, hmain.2, rfl, rfl, rfl⟩
  · rw [hmain.1]
    exact List.nodup_range _
  · have := congrArg List.length hmain.1
    simpa using this

/-- Witness for C9: a two-slot configuration with one kernel section loads
into slots with ids `[0, 1]`, the spare one padded with the synthetic
kernel. -/
theorem slots_sequential_ids_and_padding_witness :
    List.map Slot.id
      [⟨0, [⟨"k", some "vhdl", 16008, 3, 4, 4, "low"⟩]⟩, ⟨1, [dummyKernel]⟩]
      = List.range 2 :=
  (slots_sequential_ids_and_padding 7
    ⟨⟨some 2, none, none, none⟩,
     [⟨"k", some 1, some "vhdl", some 16000, some 3, some 4, some 4, some "low"⟩]⟩
    _ rfl).1

/-! ## What the interpreter hands to the host evaluator (claim C1) -/

/-- Chaining succeeds only through a successful first step. -/
theorem resBind_ok {x : Option ExpRes} {g : String × List String → Option ExpRes}
    {out : String} {tr : List String}
    (h : resBind x g = some (.ok (out, tr))) :
    ∃ a, x = some (.ok a) ∧ g a = some (.ok (out, tr)) := by
  cases x with
  | none => simp [resBind] at h
  | some e =>
    cases e with
    | error err => simp [resBind] at h
    | ok a => exact ⟨a, rfl, h⟩

/-- C1 counterexample: the loop-block condition `1 + 1` — an arithmetic
host expression, not a comparison — is accepted by the block grammar and
handed to the host evaluator on every iteration (its truthiness even
selects the output), although it is not in the specification's restricted
comparison language. -/
theorem loop_cond_arbitrary_expression_cex :
    genExpand 9 [[("n", Value.vint 2)]] "n" (some "1 + 1") [.text "y"]
      = some (.ok ("yy", ["1 + 1", "1 + 1"])) ∧
    isRestrictedComparison "1 + 1" = false :=
  ⟨rfl, rfl⟩

/-- C1 amended: the interpreter performs no filtering of what it
evaluates — every string handed to the host evaluator during a successful
expansion is a condition string taken verbatim from the template (a loop
condition as written, of any form whatever, or an if comparison
`"key comp value"`); in particular nothing confines loop conditions to
the restricted comparison grammar. -/
theorem interpF_trace_in_conds :
    ∀ (fuel : Nat) (call : ECall) (out : String) (tr : List String),
      interpF fuel call = some (.ok (out, tr)) →
      ∀ s ∈ tr, s ∈ callConds call := by
  intro fuel
  induction fuel with
  | zero =>
    intro call out tr h
    simp [interpF] at h
  | succ f ih =>
    intro call out tr h s hs
    cases call with
    | node ns es t =>
      cases t with
      | text s0 =>
        simp only [interpF] at h
        simp at h
        rcases h with ⟨-, h2⟩
        subst h2
        simp at hs
      | subst k fmt =>
        cases hls : lookupScope ns k with
        | none =>
          simp only [interpF, hls] at h
          simp at h
          rcases h with ⟨-, h2⟩
          subst h2
          simp at hs
        | some v =>
          cases fmt with
          | none =>
            simp only [interpF, hls] at h
            simp at h
            rcases h with ⟨-, h2⟩
            subst h2
            simp at hs
          | some fs =>
            simp only [interpF, hls] at h
            simp at h
            rcases h with ⟨-, h2⟩
            subst h2
            simp at hs
      | sep c =>
        simp only [interpF] at h
        simp at h
        rcases h with ⟨-, h2⟩
        subst h2
        simp at hs
      | gen k cond body =>
        exact ih (.genc ns k cond body) out tr h s hs
      | iff k comp v body =>
        simp only [interpF] at h
        simp at h
        rcases h with ⟨-, h2⟩
        subst h2
        simp at hs
    | body ns es ts =>
      cases ts with
      | nil =>
        simp only [interpF] at h
        simp at h
        rcases h with ⟨-, h2⟩
        subst h2
        simp at hs
      | cons t rest =>
        simp only [interpF] at h
        obtain ⟨⟨s1, tr1⟩, hx, h2⟩ := resBind_ok h
        obtain ⟨⟨s2, tr2⟩, hy, h3⟩ := resBind_ok h2
        simp at h3
        rcases h3 with ⟨-, h4⟩
        subst h4
        simp only [callConds, condStringsList]
        rcases List.mem_append.mp hs with hm | hm
        · exact List.mem_append_left _ (ih (.node ns es t) s1 tr1 hx s hm)
        · exact List.mem_append_right _ (ih (.body ns es rest) s2 tr2 hy s hm)
    | genc scope key cond body =>
      cases hls : lookupScope scope key with
      | none =>
        simp only [interpF, hls] at h
        simp at h
        rcases h with ⟨-, h2⟩
        subst h2
        simp at hs
      | some v =>
        cases v with
        | vbool b =>
          simp only [interpF, hls] at h
          simp at h
          rcases h with ⟨-, h2⟩
          subst h2
          simp at hs
        | vint n =>
          simp only [interpF, hls] at h
          exact ih _ out tr h s hs
        | vstr s0 =>
          simp only [interpF, hls] at h
          simp at h
          rcases h with ⟨-, h2⟩
          subst h2
          simp at hs
        | vnone =>
          simp only [interpF, hls] at h
          simp at h
          rcases h with ⟨-, h2⟩
          subst h2
          simp at hs
        | vbuiltin b =>
          simp only [interpF, hls] at h
          simp at h
          rcases h with ⟨-, h2⟩
          subst h2
          simp at hs
        | vlist items =>
          simp only [interpF, hls] at h
          exact ih _ out tr h s hs
    | iter scope cond body total items i =>
      cases items with
      | nil =>
        simp only [interpF] at h
        simp at h
        rcases h with ⟨-, h2⟩
        subst h2
        simp at hs
      | cons r rest =>
        cases cond with
        | none =>
          simp only [interpF] at h
          obtain ⟨⟨s1, tr1⟩, hx, h2⟩ := resBind_ok h
          obtain ⟨⟨s2, tr2⟩, hy, h3⟩ := resBind_ok h2
          simp at h3
          rcases h3 with ⟨-, h4⟩
          subst h4
          rcases List.mem_append.mp hs with hm | hm
          · exact ih _ s1 tr1 hx s hm
          · exact ih _ s2 tr2 hy s hm
        | some c =>
          simp only [interpF] at h
          cases hpe : pyEval c (r ++ [("_i", Value.vint i)]) with
          | error e =>
            rw [hpe] at h
            simp at h
          | ok v =>
            simp only [hpe] at h
            by_cases ht : truthy v = true
            · rw [if_pos ht] at h
              obtain ⟨⟨s1, tr1⟩, hx, h2⟩ := resBind_ok h
              obtain ⟨⟨s2, tr2⟩, hy, h3⟩ := resBind_ok h2
              simp at h3
              rcases h3 with ⟨-, h4⟩
              subst h4
              simp only [callConds, Option.toList_some] at *
              rcases List.mem_cons.mp hs with rfl | hm
              · exact List.mem_cons_self _ _
              · rcases List.mem_append.mp hm with hm2 | hm2
                · exact List.mem_cons_of_mem _ (ih _ s1 tr1 hx s hm2)
                · have := ih _ s2 tr2 hy s hm2
                  simpa using this
            · rw [if_neg ht] at h
              obtain ⟨⟨s2, tr2⟩, hy, h3⟩ := resBind_ok h
              simp at h3
              rcases h3 with ⟨-, h4⟩
              subst h4
              rcases List.mem_cons.mp hs with rfl | hm
              · exact List.mem_cons_self _ _
              · have := ih _ s2 tr2 hy s hm
                simpa using this
    | ifc scope key comp v body =>
      simp only [interpF] at h
      cases hpe : pyEval (key ++ " " ++ comp ++ " " ++ v) (scope.headD []) with
      | error e =>
        rw [hpe] at h
        simp at h
      | ok rv =>
        simp only [hpe] at h
        by_cases ht : truthy rv = true
        · rw [if_pos ht] at h
          obtain ⟨⟨s1, tr1⟩, hx, h2⟩ := resBind_ok h
          simp at h2
          rcases h2 with ⟨-, h4⟩
          subst h4
          rcases List.mem_cons.mp hs with rfl | hm
          · exact List.mem_cons_self _ _
          · exact List.mem_cons_of_mem _ (ih _ s1 tr1 hx s hm)
        · rw [if_neg ht] at h
          simp at h
          rcases h with ⟨-, h2⟩
          subst h2
          rcases List.mem_cons.mp hs with rfl | hm
          · exact List.mem_cons_self _ _
          · simp at hm
    | ifb ns ts =>
      cases ts with
      | nil =>
        simp only [interpF] at h
        simp at h
        rcases h with ⟨-, h2⟩
        subst h2
        simp at hs
      | cons t rest =>
        cases t with
        | iff k c v b =>
          simp only [interpF] at h
          obtain ⟨⟨s1, tr1⟩, hx, h2⟩ := resBind_ok h
          obtain ⟨⟨s2, tr2⟩, hy, h3⟩ := resBind_ok h2
          simp at h3
          rcases h3 with ⟨-, h4⟩
          subst h4
          simp only [callConds, condStringsList, condStrings]
          rcases List.mem_append.mp hs with hm | hm
          · have := ih _ s1 tr1 hx s hm
            simp only [callConds] at this
            exact List.mem_append_left _ this
          · exact List.mem_append_right _ (ih (.ifb ns rest) s2 tr2 hy s hm)
        | text s0 =>
          simp only [interpF] at h
          obtain ⟨⟨s2, tr2⟩, hy, h3⟩ := resBind_ok h
          simp at h3
          rcases h3 with ⟨-, h4⟩
          subst h4
          simp only [callConds, condStringsList, condStrings]
          exact List.mem_append_right _ (ih (.ifb ns rest) s2 tr2 hy s hs)
        | subst k fmt =>
          simp only [interpF] at h
          obtain ⟨⟨s2, tr2⟩, hy, h3⟩ := resBind_ok h
          simp at h3
          rcases h3 with ⟨-, h4⟩
          subst h4
          simp only [callConds, condStringsList, condStrings]
          exact List.mem_append_right _ (ih (.ifb ns rest) s2 tr2 hy s hs)
        | sep c =>
          simp only [interpF] at h
          obtain ⟨⟨s2, tr2⟩, hy, h3⟩ := resBind_ok h
          simp at h3
          rcases h3 with ⟨-, h4⟩
          subst h4
          simp only [callConds, condStringsList, condStrings]
          exact List.mem_append_right _ (ih (.ifb ns rest) s2 tr2 hy s hs)
        | gen k c b =>
          simp only [interpF] at h
          obtain ⟨⟨s2, tr2⟩, hy, h3⟩ := resBind_ok h
          simp at h3
          rcases h3 with ⟨-, h4⟩
          subst h4
          simp only [callConds, condStringsList, condStrings]
          exact List.mem_append_right _ (ih (.ifb ns rest) s2 tr2 hy s hs)

/-- Witness for the amended C1: the trace of the counterexample's loop
consists of its condition string, which is indeed the block's only
condition. -/
theorem interpF_trace_in_conds_witness :
    ("1 + 1" : String) ∈ callConds
      (.genc [[("n", Value.vint 2)]] "n" (some "1 + 1") [.text "y"]) :=
  interpF_trace_in_conds 9
    (.genc [[("n", Value.vint 2)]] "n" (some "1 + 1") [.text "y"])
    "yy" ["1 + 1", "1 + 1"] rfl "1 + 1" (by simp)

end Artico3
